import Mathlib

/-!
Shallow embedding of the Tippr calculation core (`src/lib/calculations.ts`)
together with the free-text input sanitizer that the `Calculator` and
`TipSelector` components share. JavaScript numbers are modelled as exact
rationals; `Math.round`, `Math.floor` and `Math.ceil` become integer-valued
functions on `ℚ`, and strings are Lean `String`s processed through their
character lists. A JavaScript object with optional fields becomes a structure
whose absent fields are `none` / `false`.
-/

namespace Tippr

/-- JavaScript `Math.round x`: the nearest integer, halves toward positive
infinity, i.e. `⌊x + 1/2⌋`. -/
def jsRound (x : ℚ) : ℤ := ⌊x + 1/2⌋

/-- Model of `formatCurrency(value)`: `Math.round(value * 100) / 100`. -/
def formatCurrency (value : ℚ) : ℚ := (jsRound (value * 100) : ℚ) / 100

/-- Model of `calculateTip(billAmount, tipPercent)`. -/
def calculateTip (billAmount tipPercent : ℚ) : ℚ :=
  if billAmount ≤ 0 ∨ tipPercent < 0 then 0
  else formatCurrency (billAmount * (tipPercent / 100))

/-- Model of `calculateTotal(billAmount, tipAmount)`. -/
def calculateTotal (billAmount tipAmount : ℚ) : ℚ :=
  formatCurrency (billAmount + tipAmount)

/-- The `RoundMode` union type `"none" | "up" | "down"`. -/
inductive RoundMode where
  | none
  | up
  | down
deriving DecidableEq

/-- Model of `applyRounding(total, mode)`: identity, `Math.ceil` or `Math.floor`. -/
def applyRounding (total : ℚ) (mode : RoundMode) : ℚ :=
  match mode with
  | RoundMode.none => total
  | RoundMode.up => (⌈total⌉ : ℚ)
  | RoundMode.down => (⌊total⌋ : ℚ)

/-- JavaScript `Number.prototype.toFixed(2)` for the cent-exact values it is
applied to in `calculateSplit`. -/
def toFixed2 (q : ℚ) : String :=
  let c : ℤ := jsRound (q * 100)
  (if c < 0 then "-" else "") ++ toString (c.natAbs / 100) ++ "." ++
    (if c.natAbs % 100 < 10 then "0" else "") ++ toString (c.natAbs % 100)

/-- The record returned by `calculateSplit`. -/
structure SplitResult where
  perPerson : ℚ
  remainder : ℤ
  distribution : String
deriving DecidableEq

/-- Model of `calculateSplit(total, splitCount)`: clamps the count to `[1, 50]`,
computes the per-person amount, the cent remainder, and the penny
distribution message. -/
def calculateSplit (total splitCount : ℚ) : SplitResult :=
  let validSplitCount : ℤ := max 1 (min 50 ⌊splitCount⌋)
  let perPerson := formatCurrency (total / (validSplitCount : ℚ))
  let totalCents := jsRound (total * 100)
  let perPersonCents := jsRound (perPerson * 100)
  let distributedCents := perPersonCents * validSplitCount
  let remainderCents := totalCents - distributedCents
  let distribution :=
    if remainderCents > 0 then
      let peoplePayingMore := remainderCents
      let peoplePayingBase := validSplitCount - peoplePayingMore
      let higherAmount := formatCurrency (((perPersonCents + 1 : ℤ) : ℚ) / 100)
      toString peoplePayingBase ++ " pay $" ++ toFixed2 perPerson ++ ", " ++
        toString peoplePayingMore ++
        (if peoplePayingMore = 1 then " pays $" else " pay $") ++
        toFixed2 higherAmount
    else ""
  ⟨perPerson, remainderCents, distribution⟩

/-- The character class kept by `value.replace(/[^\d.]/g, "")`. -/
def isDigitOrDot (c : Char) : Bool := c.isDigit || c = '.'

/-- Model of `String.prototype.split(".")` on the character list: the groups of
characters between the dots. -/
def splitOnDot : List Char → List (List Char)
  | [] => [[]]
  | c :: cs =>
    if c = '.' then [] :: splitOnDot cs
    else
      match splitOnDot cs with
      | [] => [[c]]
      | g :: gs => (c :: g) :: gs

/-- Model of `parts.length > 2 ? parts[0] + "." + parts.slice(1).join("") : cleaned`:
when more than one dot is present, keeps the first and concatenates the
remaining digit groups. -/
def joinExtraDots (cleaned : List Char) : List Char :=
  let parts := splitOnDot cleaned
  if parts.length > 2 then
    match parts with
    | [] => cleaned
    | p :: rest => p ++ '.' :: rest.flatten
  else cleaned

/-- Decimal value of a digit string, most significant digit first. -/
def digitsToNat (l : List Char) : ℕ :=
  l.foldl (fun n c => 10 * n + (c.toNat - 48)) 0

/-- JavaScript `parseFloat`, restricted to the sign-less digit/dot strings the
normalisation above produces (an integer part, optionally followed by a dot
and a fractional part); `none` models `NaN`. -/
def parseFloat (s : List Char) : Option ℚ :=
  let ip := s.takeWhile Char.isDigit
  let rest := s.drop ip.length
  let fp :=
    if rest.head? = some '.' then rest.tail.takeWhile Char.isDigit else []
  if ip.isEmpty && fp.isEmpty then Option.none
  else some ((digitsToNat ip : ℚ) + (digitsToNat fp : ℚ) / 10 ^ fp.length)

/-- Validation result record shared by `validateBillAmount` and
`validateTipPercent`; an optional field the JavaScript object leaves absent is
`none` / `false`. Field order: `isValid`, `sanitized`, `warning`, `error`,
`capped`. -/
structure ValidationResult where
  isValid : Bool
  sanitized : ℚ
  warning : Option String
  error : Option String
  capped : Bool
deriving DecidableEq

/-- The generic rejection message of `validateBillAmount`. -/
def billErrorMessage : String := "Please enter a valid bill amount"

/-- The large-amount warning of `validateBillAmount`. -/
def largeAmountMessage : String := "That\x27s a large amount - continue?"

/-- The cap warning of `validateTipPercent`. -/
def maxTipWarning : String := "Maximum tip is 100%"

/-- Model of `!value || value.trim() === ""`: the input is empty or whitespace-only. -/
def trimEmpty (value : List Char) : Bool :=
  value.all fun c => c = ' ' || c = '\t' || c = '\n' || c = '\r'

/-- Model of `validateBillAmount(value)`. -/
def validateBillAmount (value : String) : ValidationResult :=
  if trimEmpty value.data then ⟨true, 0, Option.none, Option.none, false⟩
  else
    let cleaned := value.data.filter isDigitOrDot
    let normalizedValue := joinExtraDots cleaned
    let digitsOnly := value.data.filter Char.isDigit
    if 13 ≤ digitsOnly.length ∧ '.' ∉ value.data then
      ⟨false, 0, Option.none, some billErrorMessage, false⟩
    else
      match parseFloat normalizedValue with
      | Option.none => ⟨false, 0, Option.none, some billErrorMessage, false⟩
      | some num =>
        if num < 0 then ⟨false, 0, Option.none, some billErrorMessage, false⟩
        else if num > 1000000 then
          ⟨false, 0, Option.none, some billErrorMessage, false⟩
        else if num > 10000 then
          ⟨true, formatCurrency num, some largeAmountMessage, Option.none, false⟩
        else ⟨true, formatCurrency num, Option.none, Option.none, false⟩

/-- Model of `validateTipPercent(value)`. -/
def validateTipPercent (value : String) : ValidationResult :=
  let cleaned := value.data.filter isDigitOrDot
  let normalizedValue := joinExtraDots cleaned
  match parseFloat normalizedValue with
  | Option.none => ⟨false, 0, Option.none, Option.none, false⟩
  | some num =>
    if num < 0 then ⟨false, 0, Option.none, Option.none, false⟩
    else if num > 100 then ⟨true, 100, some maxTipWarning, Option.none, true⟩
    else ⟨true, formatCurrency num, Option.none, Option.none, false⟩

/-- The slice step of the sanitizer: everything up to and including the first
dot is kept, every later dot is removed — models
`cleaned.slice(0, i + 1) + cleaned.slice(i + 1).replace(/\./g, "")` for `i`
the index of the first dot, and the identity when no dot occurs. -/
def keepFirstDot : List Char → List Char
  | [] => []
  | c :: cs =>
    if c = '.' then c :: cs.filter (fun d => d ≠ '.')
    else c :: keepFirstDot cs

/-- The free-text sanitizer of `handleBillChange` (Calculator) and
`handleCustomChange` (TipSelector): strip everything but digits and dots, keep
only the first dot, and prefix `0` when the result starts with a dot. -/
def sanitizeL (s : List Char) : List Char :=
  let cleaned := s.filter isDigitOrDot
  let collapsed := keepFirstDot cleaned
  if collapsed.head? = some '.' then '0' :: collapsed else collapsed

/-- String-level wrapper of `sanitizeL`. -/
def sanitize (s : String) : String := ⟨sanitizeL s.data⟩

/-! ### Evaluation helpers

The Batteries `Rat` arithmetic operations are sealed (`irreducible`), so
concrete rational computations are carried out with `norm_num` through the
following lemmas rather than by kernel reduction. -/

lemma jsRound_eq_of (x : ℚ) (z : ℤ) (h1 : (z : ℚ) ≤ x + 1/2)
    (h2 : x + 1/2 < (z : ℚ) + 1) : jsRound x = z := by
  rw [jsRound]
  exact Int.floor_eq_iff.mpr ⟨h1, h2⟩

lemma formatCurrency_eq_of (x : ℚ) (z : ℤ) (h1 : (z : ℚ) ≤ x * 100 + 1/2)
    (h2 : x * 100 + 1/2 < (z : ℚ) + 1) : formatCurrency x = (z : ℚ) / 100 := by
  rw [formatCurrency, jsRound_eq_of (x * 100) z h1 h2]

lemma jsRound_nonneg (x : ℚ) (h : 0 ≤ x) : 0 ≤ jsRound x := by
  rw [jsRound]
  exact Int.le_floor.mpr (by push_cast; linarith)

lemma formatCurrency_nonneg (x : ℚ) (h : 0 ≤ x) : 0 ≤ formatCurrency x := by
  rw [formatCurrency]
  have hz := jsRound_nonneg (x * 100) (by positivity)
  have : (0 : ℚ) ≤ (jsRound (x * 100) : ℚ) := by exact_mod_cast hz
  linarith

lemma formatCurrency_le_100 (x : ℚ) (h : x ≤ 100) : formatCurrency x ≤ 100 := by
  have hz : jsRound (x * 100) < 10001 := by
    rw [jsRound]
    refine Int.floor_lt.mpr ?_
    push_cast
    linarith
  have hz' : jsRound (x * 100) ≤ 10000 := by omega
  have : (jsRound (x * 100) : ℚ) ≤ 10000 := by exact_mod_cast hz'
  rw [formatCurrency]
  linarith

lemma takeWhile_append_of_all (p : Char → Bool) (a : List Char) (c : Char)
    (b : List Char) (ha : ∀ x ∈ a, p x = true) (hc : p c = false) :
    (a ++ c :: b).takeWhile p = a := by
  induction a with
  | nil => simp [List.takeWhile_cons, hc]
  | cons x xs ih =>
    have hx := ha x (by simp)
    simp only [List.cons_append, List.takeWhile_cons, hx, if_true]
    rw [ih (fun y hy => ha y (by simp [hy]))]

lemma takeWhile_of_all (p : Char → Bool) (a : List Char)
    (ha : ∀ x ∈ a, p x = true) : a.takeWhile p = a := by
  induction a with
  | nil => rfl
  | cons x xs ih =>
    have hx := ha x (by simp)
    simp only [List.takeWhile_cons, hx, if_true]
    rw [ih (fun y hy => ha y (by simp [hy]))]

lemma drop_length_append (a b : List Char) : (a ++ b).drop a.length = b := by
  induction a with
  | nil => rfl
  | cons x xs ih =>
    simp only [List.cons_append, List.length_cons, List.drop_succ_cons]
    exact ih

/-- Value of `parseFloat` on a digit string followed by a dot and a second
digit string. -/
lemma parseFloat_int_frac (a b : List Char)
    (ha : ∀ x ∈ a, x.isDigit = true) (hb : ∀ x ∈ b, x.isDigit = true)
    (hne : (a.isEmpty && b.isEmpty) = false) :
    parseFloat (a ++ '.' :: b) =
      some ((digitsToNat a : ℚ) + (digitsToNat b : ℚ) / 10 ^ b.length) := by
  have h1 : (a ++ '.' :: b).takeWhile Char.isDigit = a :=
    takeWhile_append_of_all _ _ _ _ ha (by decide)
  have h2 : (a ++ '.' :: b).drop a.length = '.' :: b := drop_length_append a _
  simp only [parseFloat, h1, h2, List.head?_cons, List.tail_cons]
  simp [takeWhile_of_all _ _ hb, hne]

/-- Value of `parseFloat` on a plain digit string. -/
lemma parseFloat_int (a : List Char)
    (ha : ∀ x ∈ a, x.isDigit = true) (hne : a.isEmpty = false) :
    parseFloat a = some (digitsToNat a : ℚ) := by
  have h1 : a.takeWhile Char.isDigit = a := takeWhile_of_all _ _ ha
  have h2 : a.drop a.length = [] := by simp
  simp only [parseFloat, h1, h2, List.head?_nil]
  simp only [show ((Option.none : Option Char) = some '.') = False from by simp,
    if_false, List.isEmpty_nil, Bool.and_true, hne, Bool.false_eq_true]
  simp [digitsToNat]

/-- The shape of `validateBillAmount` once the input has survived the
emptiness and card-number checks and parsed to a non-negative number. -/
lemma validateBillAmount_parsed (value : String) (q : ℚ)
    (h0 : trimEmpty value.data = false)
    (h1 : ¬(13 ≤ (value.data.filter Char.isDigit).length ∧ '.' ∉ value.data))
    (hp : parseFloat (joinExtraDots (value.data.filter isDigitOrDot)) = some q)
    (hq : ¬ q < 0) :
    validateBillAmount value =
      if q > 1000000 then ⟨false, 0, Option.none, some billErrorMessage, false⟩
      else if q > 10000 then
        ⟨true, formatCurrency q, some largeAmountMessage, Option.none, false⟩
      else ⟨true, formatCurrency q, Option.none, Option.none, false⟩ := by
  simp only [validateBillAmount, h0, Bool.false_eq_true, if_false, if_neg h1,
    hp, if_neg hq]

/-- The shape of `validateTipPercent` once the input has parsed to a
non-negative number. -/
lemma validateTipPercent_parsed (value : String) (q : ℚ)
    (hp : parseFloat (joinExtraDots (value.data.filter isDigitOrDot)) = some q)
    (hq : ¬ q < 0) :
    validateTipPercent value =
      if q > 100 then ⟨true, 100, some maxTipWarning, Option.none, true⟩
      else ⟨true, formatCurrency q, Option.none, Option.none, false⟩ := by
  simp only [validateTipPercent, hp, if_neg hq]

/-- Every result of `validateBillAmount` is one of four shapes. -/
lemma validateBillAmount_cases (value : String) :
    validateBillAmount value = ⟨true, 0, Option.none, Option.none, false⟩ ∨
    validateBillAmount value =
      ⟨false, 0, Option.none, some billErrorMessage, false⟩ ∨
    (∃ q, 0 ≤ q ∧ validateBillAmount value =
      ⟨true, formatCurrency q, some largeAmountMessage, Option.none, false⟩) ∨
    (∃ q, 0 ≤ q ∧ validateBillAmount value =
      ⟨true, formatCurrency q, Option.none, Option.none, false⟩) := by
  simp only [validateBillAmount]
  split
  · exact Or.inl rfl
  · split
    · exact Or.inr (Or.inl rfl)
    · split
      · exact Or.inr (Or.inl rfl)
      · rename_i num _
        split
        · exact Or.inr (Or.inl rfl)
        · rename_i hnum
          split
          · exact Or.inr (Or.inl rfl)
          · split
            · exact Or.inr (Or.inr (Or.inl ⟨num, not_lt.mp hnum, rfl⟩))
            · exact Or.inr (Or.inr (Or.inr ⟨num, not_lt.mp hnum, rfl⟩))

/-- Every result of `validateTipPercent` is one of three shapes. -/
lemma validateTipPercent_cases (value : String) :
    validateTipPercent value = ⟨false, 0, Option.none, Option.none, false⟩ ∨
    validateTipPercent value =
      ⟨true, 100, some maxTipWarning, Option.none, true⟩ ∨
    (∃ q, 0 ≤ q ∧ q ≤ 100 ∧ validateTipPercent value =
      ⟨true, formatCurrency q, Option.none, Option.none, false⟩) := by
  simp only [validateTipPercent]
  split
  · exact Or.inl rfl
  · rename_i num _
    split
    · exact Or.inl rfl
    · rename_i hnum
      split
      · exact Or.inr (Or.inl rfl)
      · rename_i hcap
        exact Or.inr (Or.inr ⟨num, not_lt.mp hnum, not_lt.mp hcap, rfl⟩)

lemma jsRound_intCast (z : ℤ) : jsRound ((z : ℚ)) = z :=
  jsRound_eq_of _ z (by linarith) (by linarith)

/-- The function `formatCurrency` fixes every exact multiple of a cent. -/
lemma formatCurrency_of_cents (x : ℚ) (z : ℤ) (h : x = (z : ℚ) / 100) :
    formatCurrency x = x := by
  rw [h, formatCurrency, show ((z : ℚ) / 100 * 100) = (z : ℚ) from by field_simp,
    jsRound_intCast]

/-- Full evaluation of `calculateSplit 59 3`, the 59.00-split-three-ways
boundary scenario. -/
lemma calculateSplit_59_3 : calculateSplit 59 3 = ⟨1967/100, -1, ""⟩ := by
  have hf : ⌊(3:ℚ)⌋ = 3 := by norm_num
  have hv : (max 1 (min 50 (3:ℤ)) : ℤ) = 3 := by omega
  have hpp : formatCurrency (59 / ((3:ℤ):ℚ)) = 1967/100 := by
    rw [show ((3:ℤ):ℚ) = 3 from by norm_num,
      show (1967:ℚ)/100 = ((1967:ℤ):ℚ)/100 from by norm_num]
    exact formatCurrency_eq_of _ 1967 (by norm_num) (by norm_num)
  have h1 : jsRound (59 * 100) = 5900 :=
    jsRound_eq_of _ 5900 (by norm_num) (by norm_num)
  have h2 : jsRound ((1967/100 : ℚ) * 100) = 1967 :=
    jsRound_eq_of _ 1967 (by norm_num) (by norm_num)
  simp only [calculateSplit, hf, hv, hpp, h1, h2]
  norm_num

lemma keepFirstDot_keepFirstDot (l : List Char) :
    keepFirstDot (keepFirstDot l) = keepFirstDot l := by
  induction l with
  | nil => rfl
  | cons x xs ih =>
    by_cases hx : x = '.'
    · rw [keepFirstDot, if_pos hx, keepFirstDot, if_pos hx,
        List.filter_filter]
      simp
    · rw [keepFirstDot, if_neg hx, keepFirstDot, if_neg hx, ih]

lemma mem_of_mem_keepFirstDot {c : Char} {l : List Char}
    (h : c ∈ keepFirstDot l) : c ∈ l := by
  induction l with
  | nil => simp [keepFirstDot] at h
  | cons x xs ih =>
    by_cases hx : x = '.'
    · rw [keepFirstDot, if_pos hx] at h
      rcases List.mem_cons.mp h with h | h
      · exact List.mem_cons.mpr (Or.inl h)
      · exact List.mem_cons.mpr (Or.inr (List.mem_of_mem_filter h))
    · rw [keepFirstDot, if_neg hx] at h
      rcases List.mem_cons.mp h with h | h
      · exact List.mem_cons.mpr (Or.inl h)
      · exact List.mem_cons.mpr (Or.inr (ih h))

lemma data_append (a b : String) : (a ++ b).data = a.data ++ b.data := rfl

lemma string_append_eq_empty {a b : String} (h : a ++ b = "") :
    a = "" ∧ b = "" := by
  have hd := congrArg String.data h
  rw [data_append] at hd
  obtain ⟨h1, h2⟩ := List.append_eq_nil.mp hd
  constructor
  · cases a with
    | mk d => exact congrArg String.mk h1
  · cases b with
    | mk d => exact congrArg String.mk h2

lemma sanitizeL_mem (s : List Char) : ∀ c ∈ sanitizeL s, isDigitOrDot c = true := by
  intro c hc
  simp only [sanitizeL] at hc
  by_cases hh : (keepFirstDot (s.filter isDigitOrDot)).head? = some '.'
  · rw [if_pos hh] at hc
    rcases List.mem_cons.mp hc with h | h
    · rw [h]; decide
    · exact List.of_mem_filter (mem_of_mem_keepFirstDot h)
  · rw [if_neg hh] at hc
    exact List.of_mem_filter (mem_of_mem_keepFirstDot hc)

lemma sanitizeL_keepFirstDot (s : List Char) :
    keepFirstDot (sanitizeL s) = sanitizeL s := by
  simp only [sanitizeL]
  by_cases hh : (keepFirstDot (s.filter isDigitOrDot)).head? = some '.'
  · rw [if_pos hh, keepFirstDot, if_neg (by decide : ¬ ('0' = '.')),
      keepFirstDot_keepFirstDot]
  · rw [if_neg hh, keepFirstDot_keepFirstDot]

lemma sanitizeL_head (s : List Char) : ¬ (sanitizeL s).head? = some '.' := by
  simp only [sanitizeL]
  by_cases hh : (keepFirstDot (s.filter isDigitOrDot)).head? = some '.'
  · rw [if_pos hh]; simp
  · rw [if_neg hh]; exact hh

lemma sanitizeL_fixpoint (t : List Char)
    (hmem : ∀ c ∈ t, isDigitOrDot c = true)
    (hkeep : keepFirstDot t = t) (hhead : ¬ t.head? = some '.') :
    sanitizeL t = t := by
  simp only [sanitizeL, List.filter_eq_self.mpr hmem, hkeep, if_neg hhead]

lemma sanitizeL_idem (s : List Char) : sanitizeL (sanitizeL s) = sanitizeL s :=
  sanitizeL_fixpoint _ (sanitizeL_mem s) (sanitizeL_keepFirstDot s)
    (sanitizeL_head s)

/-- C1: the claim asserts that for every total ≥ 0 the outputs of
`calculateSplit` satisfy `0 ≤ remainderCents < validSplitCount`; the code
violates the lower bound at total = 59.00 with splitCount = 3, where the
independently rounded per-person amount 19.67 overshoots and the remainder is
-1. -/
theorem C1_split_remainder_bounds_violated :
    (calculateSplit 59 3).remainder = -1 ∧
    ¬ (0 ≤ (calculateSplit 59 3).remainder) := by
  rw [calculateSplit_59_3]
  exact ⟨rfl, by decide⟩

/-- C5: `calculateTip` returns 0 when the bill is ≤ 0 or the tip percentage is
negative, and otherwise `formatCurrency (bill * percent / 100)`; in particular
the identity holds for all non-negative inputs, and both a zero bill and a zero
percentage give a zero tip. -/
theorem C5_calculateTip_spec (b p : ℚ) :
    ((b ≤ 0 ∨ p < 0) → calculateTip b p = 0) ∧
    (¬(b ≤ 0 ∨ p < 0) → calculateTip b p = formatCurrency (b * p / 100)) ∧
    (0 ≤ b → 0 ≤ p → calculateTip b p = formatCurrency (b * p / 100)) ∧
    calculateTip 0 p = 0 ∧ calculateTip b 0 = 0 := by
  have hfc0 : formatCurrency 0 = 0 := formatCurrency_of_cents 0 0 (by norm_num)
  have harg : b * (p / 100) = b * p / 100 := by ring
  refine ⟨?_, ?_, ?_, ?_, ?_⟩
  · intro h; rw [calculateTip, if_pos h]
  · intro h; rw [calculateTip, if_neg h, harg]
  · intro hb hp
    obtain rfl | hb0 := hb.eq_or_lt
    · rw [calculateTip, if_pos (Or.inl le_rfl),
        show (0:ℚ) * p / 100 = 0 from by ring, hfc0]
    · rw [calculateTip, if_neg (by push_neg; exact ⟨hb0, hp⟩), harg]
  · rw [calculateTip, if_pos (Or.inl le_rfl)]
  · rw [calculateTip]
    by_cases hb : b ≤ 0 ∨ (0:ℚ) < 0
    · rw [if_pos hb]
    · rw [if_neg hb, show (0:ℚ)/100 = 0 from by norm_num, mul_zero, hfc0]

/-- C5 witness: the tip for a 10.00 bill at 20% evaluates to 2.00 through the
theorem. -/
theorem C5_calculateTip_spec_witness : calculateTip 10 20 = 2 := by
  have h := (C5_calculateTip_spec 10 20).2.2.1 (by norm_num) (by norm_num)
  rw [h, show (10:ℚ) * 20 / 100 = 2 from by norm_num]
  exact formatCurrency_of_cents 2 200 (by norm_num)

/-- C7: the shared input sanitizer (strip to digits and dots, keep only the
first dot, prefix a zero before a leading dot) is idempotent. -/
theorem C7_sanitize_idempotent (s : String) :
    sanitize (sanitize s) = sanitize s :=
  congrArg String.mk (sanitizeL_idem s.data)

/-- C8: `applyRounding` leaves the total unchanged in mode `none`, and in
modes `up`/`down` returns the least whole currency unit above, respectively
the greatest whole unit below, the total. -/
theorem C8_applyRounding_spec (t : ℚ) :
    applyRounding t RoundMode.none = t ∧
    (∃ z : ℤ, applyRounding t RoundMode.up = (z : ℚ) ∧ t ≤ (z : ℚ) ∧
      ∀ w : ℤ, t ≤ (w : ℚ) → z ≤ w) ∧
    (∃ z : ℤ, applyRounding t RoundMode.down = (z : ℚ) ∧ (z : ℚ) ≤ t ∧
      ∀ w : ℤ, (w : ℚ) ≤ t → w ≤ z) :=
  ⟨rfl,
   ⟨⌈t⌉, rfl, Int.le_ceil t, fun _ hw => Int.ceil_le.mpr hw⟩,
   ⟨⌊t⌋, rfl, Int.floor_le t, fun _ hw => Int.le_floor.mpr hw⟩⟩

/-- C8 witness: at total 2.50 the theorem pins rounding up to 3 and rounding
down to 2. -/
theorem C8_applyRounding_spec_witness :
    applyRounding (5/2) RoundMode.up = (3 : ℚ) ∧
    applyRounding (5/2) RoundMode.down = (2 : ℚ) := by
  obtain ⟨-, ⟨z, hz, hzle, hzmin⟩, ⟨y, hy, hyle, hymax⟩⟩ :=
    C8_applyRounding_spec (5/2)
  have hz3 : z = 3 := by
    have h1 : z ≤ 3 := hzmin 3 (by norm_num)
    have h2 : (2:ℚ) < (z:ℚ) := lt_of_lt_of_le (by norm_num) hzle
    have h3 : (2:ℤ) < z := by exact_mod_cast h2
    omega
  have hy2 : y = 2 := by
    have h1 : (2:ℤ) ≤ y := hymax 2 (by norm_num)
    have h2 : (y:ℚ) < 3 := lt_of_le_of_lt hyle (by norm_num)
    have h3 : y < (3:ℤ) := by exact_mod_cast h2
    omega
  constructor
  · rw [hz, hz3]; norm_num
  · rw [hy, hy2]; norm_num

/-- C10: `calculateTotal` applies no guard: it is `formatCurrency (b + t)` for
every pair of arguments, and negative arguments yield a negative total rather
than a rejection or a clamp to 0. -/
theorem C10_calculateTotal_no_precondition :
    (∀ b t : ℚ, calculateTotal b t = formatCurrency (b + t)) ∧
    calculateTotal (-5) (-1) = -6 := by
  refine ⟨fun b t => rfl, ?_⟩
  rw [calculateTotal, show (-5 + -1 : ℚ) = -6 from by norm_num]
  exact formatCurrency_of_cents _ (-600) (by norm_num)

/-- C2 counterexample: the claim asserts that
`validateBillAmount "4111111111111111.00"` is accepted with a large-amount
warning, but the code rejects it because the parsed value exceeds 1,000,000. -/
theorem C2_card_with_decimal_rejected_counterexample :
    ¬ (validateBillAmount "4111111111111111.00").isValid = true := by
  have hd : joinExtraDots ("4111111111111111.00".data.filter isDigitOrDot) =
      ['4','1','1','1','1','1','1','1','1','1','1','1','1','1','1','1'] ++
        '.' :: ['0','0'] := by decide
  have hp : parseFloat
      (joinExtraDots ("4111111111111111.00".data.filter isDigitOrDot)) =
      some ((4111111111111111 : ℚ) + 0 / 10 ^ 2) := by
    rw [hd, parseFloat_int_frac _ _ (by decide) (by decide) (by decide),
      show digitsToNat
        ['4','1','1','1','1','1','1','1','1','1','1','1','1','1','1','1'] =
        4111111111111111 from by decide,
      show digitsToNat ['0','0'] = 0 from by decide]
    norm_num
  rw [validateBillAmount_parsed _ _ (by decide) (by decide) hp (by norm_num),
    if_pos (by norm_num)]
  simp

/-- C2 amended: a 16-digit paste without a decimal point is rejected by the
card-number heuristic, and with a decimal point appended the heuristic is
suppressed but the value is still rejected, with the same generic error,
because it exceeds the 1,000,000 plausibility bound. -/
theorem C2_card_heuristic_amended :
    validateBillAmount "4111111111111111" =
      ⟨false, 0, Option.none, some billErrorMessage, false⟩ ∧
    validateBillAmount "4111111111111111.00" =
      ⟨false, 0, Option.none, some billErrorMessage, false⟩ := by
  constructor
  · decide
  · have hd : joinExtraDots ("4111111111111111.00".data.filter isDigitOrDot) =
        ['4','1','1','1','1','1','1','1','1','1','1','1','1','1','1','1'] ++
          '.' :: ['0','0'] := by decide
    have hp : parseFloat
        (joinExtraDots ("4111111111111111.00".data.filter isDigitOrDot)) =
        some ((4111111111111111 : ℚ) + 0 / 10 ^ 2) := by
      rw [hd, parseFloat_int_frac _ _ (by decide) (by decide) (by decide),
        show digitsToNat
          ['4','1','1','1','1','1','1','1','1','1','1','1','1','1','1','1'] =
          4111111111111111 from by decide,
        show digitsToNat ['0','0'] = 0 from by decide]
      norm_num
    rw [validateBillAmount_parsed _ _ (by decide) (by decide) hp (by norm_num),
      if_pos (by norm_num)]

/-- C3: a parsed bill value strictly above 1,000,000 is rejected with the
generic error and sanitized 0; the boundary is inclusive, as the evaluations
at "1000000.00" (accepted, with the large-amount warning and no error) and
"1000000.01" (rejected) show. -/
theorem C3_million_boundary :
    (∀ (value : String) (q : ℚ), trimEmpty value.data = false →
      ¬(13 ≤ (value.data.filter Char.isDigit).length ∧ '.' ∉ value.data) →
      parseFloat (joinExtraDots (value.data.filter isDigitOrDot)) = some q →
      q > 1000000 →
      validateBillAmount value =
        ⟨false, 0, Option.none, some billErrorMessage, false⟩) ∧
    validateBillAmount "1000000.00" =
      ⟨true, 1000000, some largeAmountMessage, Option.none, false⟩ ∧
    validateBillAmount "1000000.01" =
      ⟨false, 0, Option.none, some billErrorMessage, false⟩ := by
  refine ⟨?_, ?_, ?_⟩
  · intro value q h0 h1 hp hbig
    rw [validateBillAmount_parsed value q h0 h1 hp (by linarith), if_pos hbig]
  · have hd : joinExtraDots ("1000000.00".data.filter isDigitOrDot) =
        ['1','0','0','0','0','0','0'] ++ '.' :: ['0','0'] := by decide
    have hp : parseFloat
        (joinExtraDots ("1000000.00".data.filter isDigitOrDot)) =
        some ((1000000 : ℚ) + 0 / 10 ^ 2) := by
      rw [hd, parseFloat_int_frac _ _ (by decide) (by decide) (by decide),
        show digitsToNat ['1','0','0','0','0','0','0'] = 1000000 from by decide,
        show digitsToNat ['0','0'] = 0 from by decide]
      norm_num
    rw [validateBillAmount_parsed _ _ (by decide) (by decide) hp (by norm_num),
      if_neg (by norm_num), if_pos (by norm_num),
      show (1000000 : ℚ) + 0 / 10 ^ 2 = 1000000 from by norm_num]
    rw [formatCurrency_of_cents (1000000 : ℚ) 100000000 (by norm_num)]
  · have hd : joinExtraDots ("1000000.01".data.filter isDigitOrDot) =
        ['1','0','0','0','0','0','0'] ++ '.' :: ['0','1'] := by decide
    have hp : parseFloat
        (joinExtraDots ("1000000.01".data.filter isDigitOrDot)) =
        some ((1000000 : ℚ) + 1 / 10 ^ 2) := by
      rw [hd, parseFloat_int_frac _ _ (by decide) (by decide) (by decide),
        show digitsToNat ['1','0','0','0','0','0','0'] = 1000000 from by decide,
        show digitsToNat ['0','1'] = 1 from by decide]
      norm_num
    rw [validateBillAmount_parsed _ _ (by decide) (by decide) hp (by norm_num),
      if_pos (by norm_num)]

/-- C3 witness: the universally quantified rejection clause instantiated at
the concrete input "2000000". -/
theorem C3_million_boundary_witness :
    validateBillAmount "2000000" =
      ⟨false, 0, Option.none, some billErrorMessage, false⟩ := by
  have hp : parseFloat (joinExtraDots ("2000000".data.filter isDigitOrDot)) =
      some ((2000000 : ℕ) : ℚ) := by
    rw [show joinExtraDots ("2000000".data.filter isDigitOrDot) =
        ['2','0','0','0','0','0','0'] from by decide,
      parseFloat_int _ (by decide) (by decide),
      show digitsToNat ['2','0','0','0','0','0','0'] = 2000000 from by decide]
  exact C3_million_boundary.1 "2000000" _ (by decide) (by decide) hp
    (by norm_num)

/-- C4: every tip input parsing above 100 is capped — accepted with sanitized
100, the cap warning and `capped = true` — and the boundary is inclusive:
"100" is accepted uncapped while "100.01" is capped to 100. -/
theorem C4_tip_cap_boundary :
    (∀ (value : String) (q : ℚ),
      parseFloat (joinExtraDots (value.data.filter isDigitOrDot)) = some q →
      q > 100 →
      validateTipPercent value =
        ⟨true, 100, some maxTipWarning, Option.none, true⟩) ∧
    validateTipPercent "100" = ⟨true, 100, Option.none, Option.none, false⟩ ∧
    validateTipPercent "100.01" =
      ⟨true, 100, some maxTipWarning, Option.none, true⟩ := by
  refine ⟨?_, ?_, ?_⟩
  · intro value q hp hq
    rw [validateTipPercent_parsed value q hp (by linarith), if_pos hq]
  · have hp : parseFloat (joinExtraDots ("100".data.filter isDigitOrDot)) =
        some ((100 : ℕ) : ℚ) := by
      rw [show joinExtraDots ("100".data.filter isDigitOrDot) =
          ['1','0','0'] from by decide,
        parseFloat_int _ (by decide) (by decide),
        show digitsToNat ['1','0','0'] = 100 from by decide]
    rw [validateTipPercent_parsed _ _ hp (by norm_num), if_neg (by norm_num),
      show ((100 : ℕ) : ℚ) = 100 from by norm_num,
      formatCurrency_of_cents (100 : ℚ) 10000 (by norm_num)]
  · have hd : joinExtraDots ("100.01".data.filter isDigitOrDot) =
        ['1','0','0'] ++ '.' :: ['0','1'] := by decide
    have hp : parseFloat (joinExtraDots ("100.01".data.filter isDigitOrDot)) =
        some ((100 : ℚ) + 1 / 10 ^ 2) := by
      rw [hd, parseFloat_int_frac _ _ (by decide) (by decide) (by decide),
        show digitsToNat ['1','0','0'] = 100 from by decide,
        show digitsToNat ['0','1'] = 1 from by decide]
      norm_num
    rw [validateTipPercent_parsed _ _ hp (by norm_num), if_pos (by norm_num)]

/-- C4 witness: the universally quantified cap clause instantiated at the
concrete input "150". -/
theorem C4_tip_cap_boundary_witness :
    validateTipPercent "150" =
      ⟨true, 100, some maxTipWarning, Option.none, true⟩ := by
  have hp : parseFloat (joinExtraDots ("150".data.filter isDigitOrDot)) =
      some ((150 : ℕ) : ℚ) := by
    rw [show joinExtraDots ("150".data.filter isDigitOrDot) =
        ['1','5','0'] from by decide,
      parseFloat_int _ (by decide) (by decide),
      show digitsToNat ['1','5','0'] = 150 from by decide]
  exact C4_tip_cap_boundary.1 "150" _ hp (by norm_num)

/-- C6 counterexample: the claim asserts that an invalid result of every
validating function carries a populated error field, but
`validateTipPercent "abc"` is invalid with no error set. -/
theorem C6_tip_error_empty_counterexample :
    (validateTipPercent "abc").isValid = false ∧
    (validateTipPercent "abc").error = Option.none := by
  constructor <;> decide

lemma bill_result_invariant (value : String) :
    ((validateBillAmount value).isValid = false →
      (validateBillAmount value).sanitized = 0 ∧
      (validateBillAmount value).error = some billErrorMessage) ∧
    ((validateBillAmount value).isValid = true →
      0 ≤ (validateBillAmount value).sanitized) := by
  rcases validateBillAmount_cases value with h | h | ⟨q, hq, h⟩ | ⟨q, hq, h⟩ <;>
    rw [h]
  · exact ⟨fun hv => absurd hv (by simp), fun _ => le_refl 0⟩
  · exact ⟨fun _ => ⟨rfl, rfl⟩, fun hv => absurd hv (by simp)⟩
  · exact ⟨fun hv => absurd hv (by simp), fun _ => formatCurrency_nonneg q hq⟩
  · exact ⟨fun hv => absurd hv (by simp), fun _ => formatCurrency_nonneg q hq⟩

lemma tip_result_invariant (value : String) :
    ((validateTipPercent value).isValid = false →
      (validateTipPercent value).sanitized = 0) ∧
    (validateTipPercent value).error = Option.none ∧
    ((validateTipPercent value).isValid = true →
      0 ≤ (validateTipPercent value).sanitized ∧
      (validateTipPercent value).sanitized ≤ 100) := by
  rcases validateTipPercent_cases value with h | h | ⟨q, hq0, hq1, h⟩ <;> rw [h]
  · exact ⟨fun _ => rfl, rfl, fun hv => absurd hv (by simp)⟩
  · exact ⟨fun hv => absurd hv (by simp), rfl,
      fun _ => ⟨by norm_num, by norm_num⟩⟩
  · exact ⟨fun hv => absurd hv (by simp), rfl,
      fun _ => ⟨formatCurrency_nonneg q hq0, formatCurrency_le_100 q hq1⟩⟩

/-- C6 amended: an invalid `validateBillAmount` result has sanitized 0 and the
generic error populated, and an invalid `validateTipPercent` result has
sanitized 0 but never carries an error (its error field is always absent);
valid results carry usable sanitized values (non-negative for the bill,
between 0 and 100 for the tip). -/
theorem C6_validation_invariant_amended (value : String) :
    ((validateBillAmount value).isValid = false →
      (validateBillAmount value).sanitized = 0 ∧
      (validateBillAmount value).error = some billErrorMessage) ∧
    ((validateBillAmount value).isValid = true →
      0 ≤ (validateBillAmount value).sanitized) ∧
    ((validateTipPercent value).isValid = false →
      (validateTipPercent value).sanitized = 0) ∧
    (validateTipPercent value).error = Option.none ∧
    ((validateTipPercent value).isValid = true →
      0 ≤ (validateTipPercent value).sanitized ∧
      (validateTipPercent value).sanitized ≤ 100) :=
  ⟨(bill_result_invariant value).1, (bill_result_invariant value).2,
   (tip_result_invariant value).1, (tip_result_invariant value).2.1,
   (tip_result_invariant value).2.2⟩

/-- C6 witness: the amended invariant applied to the concrete invalid tip
input "abc". -/
theorem C6_validation_invariant_amended_witness :
    (validateTipPercent "abc").sanitized = 0 :=
  (C6_validation_invariant_amended "abc").2.2.1 (by decide)

/-- C9: the distribution message of `calculateSplit` is non-empty exactly when
the cent remainder is positive; in particular a negative remainder — where the
per-person amounts do not reconcile to the total — yields the empty message. -/
theorem C9_distribution_nonempty_iff (t n : ℚ) :
    ((calculateSplit t n).distribution ≠ "" ↔
      0 < (calculateSplit t n).remainder) ∧
    ((calculateSplit t n).remainder < 0 →
      (calculateSplit t n).distribution = "") := by
  simp only [calculateSplit]
  split
  · next h =>
    refine ⟨⟨fun _ => h, fun _ hemp => ?_⟩, fun hneg => absurd hneg (by omega)⟩
    obtain ⟨h6, _⟩ := string_append_eq_empty hemp
    obtain ⟨h5, _⟩ := string_append_eq_empty h6
    obtain ⟨h4, _⟩ := string_append_eq_empty h5
    obtain ⟨h3, _⟩ := string_append_eq_empty h4
    obtain ⟨h2, _⟩ := string_append_eq_empty h3
    obtain ⟨_, hlit⟩ := string_append_eq_empty h2
    exact absurd hlit (by decide)
  · next h =>
    exact ⟨⟨fun hne => absurd rfl hne, fun hlt => absurd hlt h⟩, fun _ => rfl⟩

/-- C9 witness: at total 59.00 split three ways the remainder is negative and
the distribution message is empty. -/
theorem C9_distribution_nonempty_iff_witness :
    (calculateSplit 59 3).distribution = "" := by
  apply (C9_distribution_nonempty_iff 59 3).2
  rw [calculateSplit_59_3]
  decide

end Tippr
